import Mathlib

/-!
# Verification of the pre-flight AI safety gate

Shallow embedding of the two core modules of the repository:

* `src/tools/secret_sanitizer.py` — `SecretSanitizer`: pattern-based secret/PHI
  scanning with whitelist suppression, confidence scoring, a gate decision
  (`validate_for_ai_processing`) and redaction (`sanitize_text`).
* `src/tools/token_limit_guard.py` — `TokenLimitGuard`: token budget estimation
  (`check_token_limit`) and chunking (`chunk_text_smartly` and its three
  strategies).

Python regexes are embedded via a small backtracking regex engine whose match
preference order (leftmost position, alternation tries the left branch first,
greedy quantifiers try longer matches first) mirrors CPython's `re` module.
Character classes `\d`, `\w`, `\s` and case folding are modelled at ASCII
level, which is faithful for every concrete input considered here.
Python floats for confidences are modelled as exact rationals; every
comparison arising from the default tables gives the same result in both
representations.
-/

namespace Gate

/-! ## Python-style string primitives (over `List Char`) -/

/-- ASCII lower-casing of a character (Python `str.lower` restricted to ASCII). -/
def lowerC (c : Char) : Char := c.toLower

/-- ASCII upper-casing of a character (Python `str.upper` restricted to ASCII). -/
def upperC (c : Char) : Char := c.toUpper

/-- Python `\s` (ASCII): space, tab, newline, carriage return, vertical tab, form feed. -/
def isSpaceC (c : Char) : Bool :=
  c = ' ' || c = '\t' || c = '\n' || c = '\r' || c = '\x0b' || c = '\x0c'

/-- Python `\w` (ASCII): letters, digits, underscore. Used for `\b`. -/
def isWordC (c : Char) : Bool := c.isAlpha || c.isDigit || c = '_'

/-- Character at absolute position `i`, if in range. -/
def charAt? (t : List Char) (i : Nat) : Option Char :=
  match t.drop i with
  | [] => none
  | c :: _ => some c

/-- `List.isPrefixOf` specialised to `Char` as a Bool. -/
def isPrefixC : List Char → List Char → Bool
  | [], _ => true
  | _ :: _, [] => false
  | a :: as, b :: bs => a = b && isPrefixC as bs

/-- First index `≥ i` at which `sub` occurs in `t`, if any
(Python `str.find` starting at `i`); fuel-driven structural recursion. -/
def findSubFrom : Nat → List Char → List Char → Nat → Option Nat
  | 0, _, _, _ => none
  | fuel + 1, t, sub, i =>
    if i + sub.length ≤ t.length then
      if isPrefixC sub (t.drop i) then some i
      else findSubFrom fuel t sub (i + 1)
    else none

/-- Python `str.find`: index of first occurrence of `sub` in `t`, or `-1`. -/
def pyFind (t sub : List Char) : Int :=
  match findSubFrom (t.length + 1) t sub 0 with
  | some i => (i : Int)
  | none => -1

/-- Python `sub in t` (substring containment). -/
def containsSub (t sub : List Char) : Bool := (findSubFrom (t.length + 1) t sub 0).isSome

/-- Python `t.replace(old, new, 1)`: replace the first occurrence of `old`. -/
def replaceFirst (t old new : List Char) : List Char :=
  match findSubFrom (t.length + 1) t old 0 with
  | some i => t.take i ++ new ++ t.drop (i + old.length)
  | none => t

/-- Is `i` the start of a Python line terminator in `t`?  Handles the
terminators recognised by `str.splitlines` that can occur in our texts
(`\n`, `\r\n`, `\r`, `\v`, `\f`). Returns the terminator length. -/
def lineBreakLen (t : List Char) (i : Nat) : Nat :=
  match charAt? t i with
  | some '\r' => if charAt? t (i + 1) = some '\n' then 2 else 1
  | some '\n' => 1
  | some '\x0b' => 1
  | some '\x0c' => 1
  | _ => 0

/-- Python `str.splitlines` (no `keepends`). -/
def pySplitlinesGo : Nat → List Char → List Char → Nat → List (List Char)
  | 0, _, acc, _ => if acc.isEmpty then [] else [acc.reverse]
  | fuel + 1, t, acc, i =>
    if i < t.length then
      let k := lineBreakLen t i
      if k = 0 then
        match charAt? t i with
        | some c => pySplitlinesGo fuel t (c :: acc) (i + 1)
        | none => if acc.isEmpty then [] else [acc.reverse]
      else
        acc.reverse :: pySplitlinesGo fuel t [] (i + k)
    else if acc.isEmpty then [] else [acc.reverse]

def pySplitlines (t : List Char) : List (List Char) :=
  pySplitlinesGo (t.length + 1) t [] 0

/-- Python `sep.join(xs)`. -/
def joinSep (sep : List Char) : List (List Char) → List Char
  | [] => []
  | [x] => x
  | x :: y :: rest => x ++ sep ++ joinSep sep (y :: rest)

/-- Python `t.split(sep)` for a non-empty separator. -/
def splitOnSepGo : Nat → List Char → List Char → List (List Char)
  | 0, t, _ => [t]
  | fuel + 1, t, sep =>
    match findSubFrom (t.length + 1) t sep 0 with
    | some i => t.take i :: splitOnSepGo fuel (t.drop (i + sep.length)) sep
    | none => [t]

def splitOnSep (t sep : List Char) : List (List Char) :=
  splitOnSepGo (t.length + 1) t sep

/-- ASCII string upper-casing, `str.upper` on the ASCII names used here. -/
def upperStr (s : String) : String := String.mk (s.toList.map upperC)

/-! ## Regex engine

Backtracking matcher over `List Char`, mirroring CPython `re` preference
order.  `ends fuel r t i` lists the candidate match end positions of `r` in
`t` starting at absolute position `i`, most preferred first.  Fuel strictly
decreases at every recursive call, so the definition is structurally
recursive and reduces inside the kernel. -/

inductive Re where
  /-- matches the empty string -/
  | eps : Re
  /-- one character satisfying the class predicate -/
  | cls (f : Char → Bool) : Re
  /-- concatenation -/
  | cat (r s : Re) : Re
  /-- alternation, left branch preferred (Python `|`) -/
  | alt (r s : Re) : Re
  /-- greedy Kleene star (Python `*`) -/
  | star (r : Re) : Re
  /-- word boundary `\b` -/
  | wordB : Re
  /-- end-of-string anchor `$` (end, or just before a final newline) -/
  | eol : Re

/-- `\b` holds at `i` iff exactly one side is a word character. -/
def atWordBoundary (t : List Char) (i : Nat) : Bool :=
  let before := match i with
    | 0 => false
    | j + 1 => match charAt? t j with
      | some c => isWordC c
      | none => false
  let after := match charAt? t i with
    | some c => isWordC c
    | none => false
  before != after

/-- `$` holds at the end of the string or just before a trailing `'\n'`. -/
def atEol (t : List Char) (i : Nat) : Bool :=
  i = t.length || (i + 1 = t.length && charAt? t i = some '\n')

/-- Candidate match ends, in backtracking preference order. -/
def ends : Nat → Re → List Char → Nat → List Nat
  | 0, _, _, _ => []
  | fuel + 1, r, t, i =>
    match r with
    | .eps => [i]
    | .cls f =>
      match charAt? t i with
      | some c => if f c then [i + 1] else []
      | none => []
    | .cat r s => (ends fuel r t i).flatMap (fun e => ends fuel s t e)
    | .alt r s => ends fuel r t i ++ ends fuel s t i
    | .star r =>
      ((ends fuel r t i).filter (fun e => i < e)).flatMap
        (fun e => ends fuel (.star r) t e) ++ [i]
    | .wordB => if atWordBoundary t i then [i] else []
    | .eol => if atEol t i then [i] else []

/-- Syntactic size of a regex, used only to choose a sufficient fuel. -/
def reSize : Re → Nat
  | .eps => 1
  | .cls _ => 1
  | .cat r s => reSize r + reSize s + 1
  | .alt r s => reSize r + reSize s + 1
  | .star r => reSize r + 1
  | .wordB => 1
  | .eol => 1

/-- Fuel ample for matching `r` against `t`: every recursive call either
descends in the AST or makes strict progress in the text. -/
def fuelFor (r : Re) (t : List Char) : Nat :=
  (reSize r + 1) * (t.length + 2)

/-- The match the backtracking engine produces at position `i`
(end position), if any — head of the preference-ordered candidate list. -/
def matchEndAt (r : Re) (t : List Char) (i : Nat) : Option Nat :=
  (ends (fuelFor r t) r t i).head?

/-- Python `pattern.finditer(t)`: non-overlapping matches, scanning left to
right, as `(start, end)` pairs. -/
def findIterGo (r : Re) (t : List Char) : Nat → Nat → List (Nat × Nat)
  | 0, _ => []
  | fuel + 1, i =>
    if i ≤ t.length then
      match matchEndAt r t i with
      | some e => (i, e) :: findIterGo r t fuel (if e = i then i + 1 else e)
      | none => findIterGo r t fuel (i + 1)
    else []

def findIter (r : Re) (t : List Char) : List (Nat × Nat) :=
  findIterGo r t (t.length + 2) 0

/-- Python `pattern.search(t) is not None`. -/
def rsearch (r : Re) (t : List Char) : Bool :=
  (List.range (t.length + 1)).any (fun i => (matchEndAt r t i).isSome)

/-- Python `re.match(pattern, t) is not None` (anchored at position 0). -/
def rmatch0 (r : Re) (t : List Char) : Bool :=
  (matchEndAt r t 0).isSome

/-! ### Regex construction helpers -/

/-- Case-sensitive literal. -/
def lit (s : String) : Re :=
  s.toList.foldr (fun c r => Re.cat (Re.cls (fun x => x = c)) r) Re.eps

/-- Case-insensitive literal (pattern compiled with `re.IGNORECASE`). -/
def litCI (s : String) : Re :=
  s.toList.foldr (fun c r => Re.cat (Re.cls (fun x => lowerC x = lowerC c)) r) Re.eps

/-- Character class listing its members, e.g. `[/+=]`. -/
def oneOf (s : String) : Re := Re.cls (fun c => s.toList.contains c)

def rcat (rs : List Re) : Re := rs.foldr Re.cat Re.eps

def ralt : List Re → Re
  | [] => Re.cls (fun _ => false)
  | [r] => r
  | r :: s :: rest => Re.alt r (ralt (s :: rest))

/-- `r?` (greedy). -/
def ropt (r : Re) : Re := Re.alt r Re.eps

/-- `r+` (greedy). -/
def rplus (r : Re) : Re := Re.cat r (Re.star r)

/-- `r{n}`. -/
def repN : Nat → Re → Re
  | 0, _ => Re.eps
  | n + 1, r => Re.cat r (repN n r)

/-- up to `n` copies, greedy (for `r{m,n}` tails). -/
def repUpTo : Nat → Re → Re
  | 0, _ => Re.eps
  | n + 1, r => Re.alt (Re.cat r (repUpTo n r)) Re.eps

/-- `r{m,n}` (greedy). -/
def repRange (m n : Nat) (r : Re) : Re := Re.cat (repN m r) (repUpTo (n - m) r)

/-- `r{m,}` (greedy). -/
def repAtLeast (m : Nat) (r : Re) : Re := Re.cat (repN m r) (Re.star r)

/-- `\d` (ASCII). -/
def digitC : Re := Re.cls Char.isDigit

/-- `.` — any character except newline (Python default, no `DOTALL`). -/
def dotAny : Re := Re.cls (fun c => c ≠ '\n')

/-- `[\s_-]` as used throughout the detector table. -/
def sepCls : Re := Re.cls (fun c => isSpaceC c || c = '_' || c = '-')

/-- `[\s:=]` as used throughout the detector table. -/
def kvSep : Re := Re.cls (fun c => isSpaceC c || c = ':' || c = '=')

/-- `[A-Za-z0-9]`. -/
def alnumC : Re := Re.cls (fun c => c.isAlpha || c.isDigit)

end Gate

namespace Gate

/-! ## `secret_sanitizer.py` — data model -/

/-- `SecretSeverity` (secret_sanitizer.py). -/
inductive SecretSeverity where
  | CRITICAL | HIGH | MEDIUM | LOW
deriving DecidableEq

/-- `SecretMatch` dataclass (secret_sanitizer.py).  `confidence` is an exact
rational standing for the Python float; every comparison arising from the
default tables agrees between the two representations. -/
structure SecretMatch where
  pattern_name : String
  severity : SecretSeverity
  matched_text : String
  line_number : Nat
  context : String
  file_path : Option String := none
  is_whitelisted : Bool := false
  confidence : ℚ := 1
deriving DecidableEq

/-! ### Detector tables (PHI_PATTERNS and CREDENTIAL_PATTERNS)

Each entry carries the compiled regex, the severity and the base
confidence, exactly as in the source table.  The original pattern text is
quoted in the comment above each definition. -/

/-- `(?i)(patient|subscriber|guarantor)[\s_-]*(name|full[\s_-]*name)[\s:=]+[A-Z][a-z]+ [A-Z][a-z]+`
(under IGNORECASE the letter classes match either case). -/
def patientNameRe : Re :=
  rcat [ralt [litCI "patient", litCI "subscriber", litCI "guarantor"],
        Re.star sepCls,
        ralt [litCI "name", rcat [litCI "full", Re.star sepCls, litCI "name"]],
        rplus kvSep,
        Re.cls Char.isAlpha, rplus (Re.cls Char.isAlpha), lit " ",
        Re.cls Char.isAlpha, rplus (Re.cls Char.isAlpha)]

/-- `\b\d{3}[-.\s]?\d{2}[-.\s]?\d{4}\b` -/
def ssnRe : Re :=
  let sep := Re.cls (fun c => c = '-' || c = '.' || isSpaceC c)
  rcat [Re.wordB, repN 3 digitC, ropt sep, repN 2 digitC, ropt sep,
        repN 4 digitC, Re.wordB]

/-- `(?i)(mrn|medical[\s_-]*record[\s_-]*number|patient[\s_-]*id)[\s:=]+[A-Z0-9]{6,12}` -/
def mrnRe : Re :=
  rcat [ralt [litCI "mrn",
              rcat [litCI "medical", Re.star sepCls, litCI "record",
                    Re.star sepCls, litCI "number"],
              rcat [litCI "patient", Re.star sepCls, litCI "id"]],
        rplus kvSep, repRange 6 12 alnumC]

/-- `(?i)(dob|date[\s_-]*of[\s_-]*birth|birthdate)` then `[\s:=]+`, then
`\d{1,2}`, a slash-or-dash class, `\d{1,2}`, a slash-or-dash class, `\d{2,4}`. -/
def dobRe : Re :=
  rcat [ralt [litCI "dob",
              rcat [litCI "date", Re.star sepCls, litCI "of",
                    Re.star sepCls, litCI "birth"],
              litCI "birthdate"],
        rplus kvSep,
        repRange 1 2 digitC, oneOf "/-", repRange 1 2 digitC, oneOf "/-",
        repRange 2 4 digitC]

/-- `(?i)(patient|subscriber)[\s_-]*email[\s:=]+[a-zA-Z0-9._%+-]+@[a-zA-Z0-9.-]+\.[a-zA-Z]{2,}` -/
def emailPhiRe : Re :=
  rcat [ralt [litCI "patient", litCI "subscriber"], Re.star sepCls,
        litCI "email", rplus kvSep,
        rplus (Re.cls (fun c => c.isAlpha || c.isDigit || c = '.' || c = '_'
                                || c = '%' || c = '+' || c = '-')),
        lit "@",
        rplus (Re.cls (fun c => c.isAlpha || c.isDigit || c = '.' || c = '-')),
        lit ".", repAtLeast 2 (Re.cls Char.isAlpha)]

/-- `(?i)(patient|subscriber|emergency)[\s_-]*(phone|tel|mobile)[\s:=]+\(?\d{3}\)?[-.\s]?\d{3}[-.\s]?\d{4}` -/
def phoneRe : Re :=
  let sep := Re.cls (fun c => c = '-' || c = '.' || isSpaceC c)
  rcat [ralt [litCI "patient", litCI "subscriber", litCI "emergency"],
        Re.star sepCls,
        ralt [litCI "phone", litCI "tel", litCI "mobile"],
        rplus kvSep,
        ropt (lit "("), repN 3 digitC, ropt (lit ")"), ropt sep,
        repN 3 digitC, ropt sep, repN 4 digitC]

/-- `\b(?:\d{4}[-\s]?){3}\d{4}\b` -/
def creditCardRe : Re :=
  rcat [Re.wordB,
        repN 3 (rcat [repN 4 digitC, ropt (Re.cls (fun c => c = '-' || isSpaceC c))]),
        repN 4 digitC, Re.wordB]

/-- `\b\d{1,3}\.\d{1,3}\.\d{1,3}\.\d{1,3}\b` -/
def ipAddressRe : Re :=
  rcat [Re.wordB, repRange 1 3 digitC, lit ".", repRange 1 3 digitC, lit ".",
        repRange 1 3 digitC, lit ".", repRange 1 3 digitC, Re.wordB]

/-- `(?i)(aws|amazon)[\s_-]*(access[\s_-]*key|key[\s_-]*id)[\s:=]+[A-Z0-9]{20}` -/
def awsAccessKeyRe : Re :=
  rcat [ralt [litCI "aws", litCI "amazon"], Re.star sepCls,
        ralt [rcat [litCI "access", Re.star sepCls, litCI "key"],
              rcat [litCI "key", Re.star sepCls, litCI "id"]],
        rplus kvSep, repN 20 alnumC]

/-- `[A-Za-z0-9/+=]` -/
def b64C : Re := Re.cls (fun c => c.isAlpha || c.isDigit || c = '/' || c = '+' || c = '=')

/-- `(?i)(aws|amazon)[\s_-]*secret[\s:=]+[A-Za-z0-9/+=]{40}` -/
def awsSecretRe : Re :=
  rcat [ralt [litCI "aws", litCI "amazon"], Re.star sepCls, litCI "secret",
        rplus kvSep, repN 40 b64C]

/-- `(?i)azure[\s_-]*(key|secret|password)[\s:=]+[A-Za-z0-9/+=]{32,}` -/
def azureKeyRe : Re :=
  rcat [litCI "azure", Re.star sepCls,
        ralt [litCI "key", litCI "secret", litCI "password"],
        rplus kvSep, repAtLeast 32 b64C]

/-- `(?i)gh[pousr]_[A-Za-z0-9]{36,}` -/
def githubTokenRe : Re :=
  rcat [litCI "gh", Re.cls (fun c => "pousr".toList.contains (lowerC c)),
        lit "_", repAtLeast 36 alnumC]

/-- `sk-[A-Za-z0-9]{48}` (case-sensitive) -/
def openaiKeyRe : Re := rcat [lit "sk-", repN 48 alnumC]

/-- `(?i)(api|private)[\s_-]*(key|token|secret)[\s:=]+['\"]?[A-Za-z0-9/+=_-]{32,}['\"]?` -/
def genericApiKeyRe : Re :=
  rcat [ralt [litCI "api", litCI "private"], Re.star sepCls,
        ralt [litCI "key", litCI "token", litCI "secret"],
        rplus kvSep, ropt (oneOf "'\""),
        repAtLeast 32 (Re.cls (fun c => c.isAlpha || c.isDigit || c = '/' || c = '+'
                                        || c = '=' || c = '_' || c = '-')),
        ropt (oneOf "'\"")]

/-- `[A-Za-z0-9_-]` -/
def jwtC : Re := Re.cls (fun c => c.isAlpha || c.isDigit || c = '_' || c = '-')

/-- `eyJ[A-Za-z0-9_-]+\.eyJ[A-Za-z0-9_-]+\.[A-Za-z0-9_-]+` (case-sensitive) -/
def jwtTokenRe : Re :=
  rcat [lit "eyJ", rplus jwtC, lit ".", lit "eyJ", rplus jwtC, lit ".", rplus jwtC]

/-- `(?i)(connection[\s_-]*string|conn[\s_-]*str)[\s:=]+.*(password|pwd)=[^;\s]+` -/
def connectionStringRe : Re :=
  rcat [ralt [rcat [litCI "connection", Re.star sepCls, litCI "string"],
              rcat [litCI "conn", Re.star sepCls, litCI "str"]],
        rplus kvSep, Re.star dotAny,
        ralt [litCI "password", litCI "pwd"], lit "=",
        rplus (Re.cls (fun c => !(c = ';' || isSpaceC c)))]

/-- `-----BEGIN (RSA |EC )?PRIVATE KEY-----` (case-sensitive) -/
def privateKeyHeaderRe : Re :=
  rcat [lit "-----BEGIN ", ropt (ralt [lit "RSA ", lit "EC "]), lit "PRIVATE KEY-----"]

/-- Exact rational multiplication (`mkRat` normalises), used for the
float multiplications `confidence *= 0.3` and `confidence *= 0.5` of the
source; `Rat.mul` itself is irreducible and would not evaluate in the
kernel. -/
def ratMul (a b : ℚ) : ℚ := mkRat (a.num * b.num) (a.den * b.den)

/-- `PHI_PATTERNS` table: name, compiled rule, severity, base confidence. -/
def PHI_PATTERNS : List (String × Re × SecretSeverity × ℚ) :=
  [("patient_name", patientNameRe, .CRITICAL, mkRat 9 10),
   ("ssn", ssnRe, .CRITICAL, mkRat 85 100),
   ("mrn", mrnRe, .CRITICAL, mkRat 95 100),
   ("dob", dobRe, .CRITICAL, mkRat 9 10),
   ("email_phi", emailPhiRe, .HIGH, mkRat 8 10),
   ("phone", phoneRe, .HIGH, mkRat 85 100),
   ("credit_card", creditCardRe, .CRITICAL, mkRat 8 10),
   ("ip_address", ipAddressRe, .MEDIUM, mkRat 6 10)]

/-- `CREDENTIAL_PATTERNS` table. -/
def CREDENTIAL_PATTERNS : List (String × Re × SecretSeverity × ℚ) :=
  [("aws_access_key", awsAccessKeyRe, .CRITICAL, mkRat 95 100),
   ("aws_secret", awsSecretRe, .CRITICAL, mkRat 95 100),
   ("azure_key", azureKeyRe, .CRITICAL, mkRat 9 10),
   ("github_token", githubTokenRe, .CRITICAL, mkRat 98 100),
   ("openai_key", openaiKeyRe, .CRITICAL, mkRat 98 100),
   ("generic_api_key", genericApiKeyRe, .HIGH, mkRat 7 10),
   ("jwt_token", jwtTokenRe, .HIGH, mkRat 95 100),
   ("connection_string", connectionStringRe, .CRITICAL, mkRat 95 100),
   ("private_key_header", privateKeyHeaderRe, .CRITICAL, mkRat 1 1)]

/-- `SENSITIVE_FILE_PATTERNS`: raw pattern text (used in the reason string)
paired with the rule, searched with IGNORECASE. -/
def SENSITIVE_FILE_PATTERNS : List (String × Re) :=
  [("\\.env$", rcat [litCI ".env", Re.eol]),
   ("\\.env\\.", litCI ".env."),
   ("secrets\\.yaml$", rcat [litCI "secrets.yaml", Re.eol]),
   ("secrets\\.json$", rcat [litCI "secrets.json", Re.eol]),
   ("\\.pem$", rcat [litCI ".pem", Re.eol]),
   ("\\.key$", rcat [litCI ".key", Re.eol]),
   ("\\.pfx$", rcat [litCI ".pfx", Re.eol]),
   ("id_rsa", litCI "id_rsa"),
   ("id_ed25519", litCI "id_ed25519"),
   ("\\.kdbx$", rcat [litCI ".kdbx", Re.eol]),
   ("vault\\.db$", rcat [litCI "vault.db", Re.eol]),
   ("credentials\\.json$", rcat [litCI "credentials.json", Re.eol]),
   ("service-account.*\\.json$",
     rcat [litCI "service-account", Re.star dotAny, litCI ".json", Re.eol])]

/-- `DEFAULT_WHITELISTS` (compiled with IGNORECASE). -/
def DEFAULT_WHITELISTS : List (String × List Re) :=
  [("test_emails",
    [litCI "test@example.com",
     litCI "user@example.org",
     litCI "admin@localhost",
     rcat [Re.star dotAny, litCI "@test.local"],
     rcat [Re.star dotAny, litCI "@example.",
           ralt [litCI "com", litCI "org", litCI "net"]]]),
   ("test_ips",
    [litCI "127.0.0.1",
     litCI "0.0.0.0",
     litCI "localhost",
     rcat [litCI "192.168.", rplus digitC, lit ".", rplus digitC],
     rcat [litCI "10.", rplus digitC, lit ".", rplus digitC, lit ".", rplus digitC],
     rcat [litCI "172.",
           ralt [rcat [lit "1", oneOf "6789"],
                 rcat [lit "2", digitC],
                 rcat [lit "3", oneOf "01"]],
           lit ".", rplus digitC, lit ".", rplus digitC]]),
   ("test_ssns",
    [litCI "000-00-0000",
     litCI "111-11-1111",
     litCI "123-45-6789",
     litCI "999-99-9999"]),
   ("test_credit_cards",
    [litCI "0000-0000-0000-0000",
     litCI "1111-1111-1111-1111",
     litCI "4242-4242-4242-4242"]),
   ("safe_files",
    [litCI "test/", litCI "tests/", litCI "__tests__/",
     litCI ".test.", litCI ".spec.",
     litCI "mock", litCI "fixture", litCI "example", litCI "demo"])]

/-- Post-`__init__` state of a `SecretSanitizer`: the compiled pattern table,
the compiled whitelists and the confidence threshold. -/
structure SecretSanitizer where
  compiled_patterns : List (String × Re × SecretSeverity × ℚ)
  compiled_whitelists : List (String × List Re)
  confidence_threshold : ℚ

/-- Default construction: `SecretSanitizer()` with PHI and credential
detection enabled and threshold 0.7. -/
def defaultSanitizer : SecretSanitizer :=
  { compiled_patterns := PHI_PATTERNS ++ CREDENTIAL_PATTERNS,
    compiled_whitelists := DEFAULT_WHITELISTS,
    confidence_threshold := mkRat 7 10 }

/-- The category's compiled pattern list, `[]` when the category is absent
(`_is_whitelisted` returns `False` for an unknown category). -/
def wlFind : List (String × List Re) → String → List Re
  | [], _ => []
  | (c, ps) :: rest, cat => if c = cat then ps else wlFind rest cat

/-- `SecretSanitizer._is_whitelisted`: does any pattern of the category
search-match the text? -/
def is_whitelistedB (wls : List (String × List Re)) (text : List Char)
    (category : String) : Bool :=
  (wlFind wls category).any (fun p => rsearch p text)

/-- `__init__`'s whitelist merging step for one extra entry:
`self.whitelists.setdefault(category, []).extend([p])`. -/
def extendWhitelist (wls : List (String × List Re)) (cat : String) (p : Re) :
    List (String × List Re) :=
  if wls.any (fun e => e.1 = cat) then
    wls.map (fun e => if e.1 = cat then (e.1, e.2 ++ [p]) else e)
  else
    wls ++ [(cat, [p])]

/-- `^\d\.\d+\.\d+\.\d+$` — the version-number heuristic inside `scan_text`. -/
def versionLikeRe : Re :=
  rcat [digitC, lit ".", rplus digitC, lit ".", rplus digitC, lit ".",
        rplus digitC, Re.eol]

/-- Severity is CRITICAL or HIGH. -/
def isCritHigh : SecretSeverity → Bool
  | .CRITICAL => true
  | .HIGH => true
  | _ => false

/-- The `if/elif` chain of `scan_text` that assigns `is_whitelisted = True`,
written as the equivalent disjunction (every branch assigns `True`). -/
def whitelistFlag (wls : List (String × List Re)) (applyWl : Bool)
    (pname : String) (matchedText : List Char) : Bool :=
  applyWl &&
    ((containsSub pname.toList "email".toList
        && is_whitelistedB wls matchedText "test_emails") ||
     (containsSub pname.toList "ip_address".toList
        && is_whitelistedB wls matchedText "test_ips") ||
     (containsSub pname.toList "ssn".toList
        && is_whitelistedB wls matchedText "test_ssns") ||
     (containsSub pname.toList "credit_card".toList
        && is_whitelistedB wls matchedText "test_credit_cards"))

/-- The confidence heuristics of `scan_text` (run only when
`apply_whitelist` is set): a version-number-looking IP match takes
`confidence *= 0.3`, and a dashed number on a version/id line takes
`confidence *= 0.5`.  Independent of the whitelist tables. -/
def adjustedConfidence (applyWl : Bool) (pname : String) (baseConf : ℚ)
    (matchedText line : List Char) : ℚ :=
  let conf1 : ℚ :=
    if applyWl && containsSub pname.toList "ip_address".toList
        && rmatch0 versionLikeRe matchedText
    then ratMul baseConf (mkRat 3 10) else baseConf
  if applyWl && containsSub pname.toList "credit_card".toList
      && containsSub line "-".toList
      && (containsSub (line.map lowerC) "version".toList
          || containsSub (line.map lowerC) "id".toList)
  then ratMul conf1 (mkRat 1 2) else conf1

/-- Body of the innermost loop of `scan_text`: given one regex match span on a
line, compute the whitelist flag and adjusted confidence, and emit the
`SecretMatch` when `confidence >= threshold or not apply_whitelist`. -/
def mkFinding (S : SecretSanitizer) (applyWl : Bool) (filePath : Option String)
    (pname : String) (sev : SecretSeverity) (baseConf : ℚ)
    (lineNum : Nat) (line : List Char) (span : Nat × Nat) : List SecretMatch :=
  let matchedText := (line.drop span.1).take (span.2 - span.1)
  let conf2 := adjustedConfidence applyWl pname baseConf matchedText line
  if decide (S.confidence_threshold ≤ conf2) || !applyWl then
    [{ pattern_name := pname, severity := sev,
       matched_text := String.mk (matchedText.take 50),
       line_number := lineNum,
       context := String.mk (line.take 100),
       file_path := filePath,
       is_whitelisted := whitelistFlag S.compiled_whitelists applyWl pname matchedText,
       confidence := conf2 }]
  else []

/-- `SecretSanitizer.scan_text`: for every pattern, for every line (1-based),
for every non-overlapping match, emit a finding subject to the confidence
threshold. -/
def scan_text (S : SecretSanitizer) (text : String)
    (filePath : Option String := none) (applyWl : Bool := true) :
    List SecretMatch :=
  let lines := pySplitlines text.toList
  S.compiled_patterns.flatMap (fun pat =>
    (List.enumFrom 1 lines).flatMap (fun ln =>
      (findIter pat.2.1 ln.2).flatMap (fun span =>
        mkFinding S applyWl filePath pat.1 pat.2.2.1 pat.2.2.2 ln.1 ln.2 span)))

/-- `SecretSanitizer.is_sensitive_file`. -/
def is_sensitive_file (S : SecretSanitizer) (fp : String) : Bool × String :=
  if is_whitelistedB S.compiled_whitelists fp.toList "safe_files" then
    (false, "Whitelisted as safe file")
  else
    match SENSITIVE_FILE_PATTERNS.find? (fun p => rsearch p.2 fp.toList) with
    | some p => (true, "Matches sensitive file pattern: " ++ p.1)
    | none => (false, "Not sensitive")

/-- The decision core of `validate_for_ai_processing` (everything after the
file-path check): filter significant findings, keep CRITICAL/HIGH ones, and
block when any remain and `block_on_detection` is set.  The full finding
list is returned either way. -/
def gate_decision (threshold : ℚ) (block_on_detection : Bool)
    (ms : List SecretMatch) : Bool × List SecretMatch :=
  let significant := ms.filter
    (fun m => !m.is_whitelisted && decide (threshold ≤ m.confidence))
  let critical := significant.filter (fun m => isCritHigh m.severity)
  if !critical.isEmpty && block_on_detection then (false, ms)
  else (true, ms)

/-- `SecretSanitizer.validate_for_ai_processing`.  The `if file_path:` guard
is Python truthiness: `None` and `""` both skip the sensitive-file check. -/
def validate_for_ai_processing (S : SecretSanitizer) (text : String)
    (filePath : Option String := none) (block_on_detection : Bool := true) :
    Bool × List SecretMatch :=
  let fileBlocked :=
    match filePath with
    | some fp => !fp.isEmpty && (is_sensitive_file S fp).1
    | none => false
  if fileBlocked then (false, [])
  else gate_decision S.confidence_threshold block_on_detection
    (scan_text S text filePath true)

/-- The substitution string `sanitize_text` uses for one match under the
given redaction mode. -/
def redactionFor (redaction_mode : String) (m : SecretMatch) : String :=
  if redaction_mode = "replace" then
    "[REDACTED_" ++ upperStr m.pattern_name ++ "]"
  else if redaction_mode = "mask" then
    let mt := m.matched_text.toList
    if 4 < mt.length then
      String.mk (mt.take 1 ++ List.replicate (mt.length - 2) '█'
                 ++ mt.drop (mt.length - 1))
    else String.mk (List.replicate mt.length '█')
  else if redaction_mode = "remove" then ""
  else "[REDACTED]"

/-- Stable insertion for descending sort by key (ties keep original order),
the behaviour of Python `sorted(..., key=..., reverse=True)`. -/
def insertDescBy (key : SecretMatch → Int) (x : SecretMatch) :
    List SecretMatch → List SecretMatch
  | [] => [x]
  | y :: ys => if key x ≤ key y then y :: insertDescBy key x ys else x :: y :: ys

def sortDescBy (key : SecretMatch → Int) (ms : List SecretMatch) :
    List SecretMatch :=
  ms.foldl (fun acc x => insertDescBy key x acc) []

/-- `SecretSanitizer.sanitize_text`: scan without whitelisting, sort matches
by `text.find(matched_text)` descending, and replace the first occurrence of
each (non-whitelisted) truncated matched text. -/
def sanitize_text (S : SecretSanitizer) (text : String)
    (redaction_mode : String := "replace") : String × List SecretMatch :=
  let found := scan_text S text none false
  let sorted := sortDescBy (fun m => pyFind text.toList m.matched_text.toList) found
  let sanitized := sorted.foldl (fun acc m =>
    if m.is_whitelisted then acc
    else replaceFirst acc m.matched_text.toList (redactionFor redaction_mode m).toList)
    text.toList
  (String.mk sanitized, found)

/-- Number of non-suppressed findings in a scan result. -/
def countNonSuppressed (ms : List SecretMatch) : Nat :=
  ms.countP (fun m => !m.is_whitelisted)

end Gate

namespace Gate

/-! ## `token_limit_guard.py` — data model -/

/-- `TokenEstimate` dataclass.  `usage_percentage` is the exact rational value
of the source's float `(estimated_tokens / max_tokens) * 100`. -/
structure TokenEstimate where
  text_length : Nat
  estimated_tokens : Nat
  max_tokens : Nat
  usage_percentage : ℚ
  is_safe : Bool
  model : String
deriving DecidableEq

/-- `ChunkMetadata` dataclass.  `files` may hold `None` in the source (the
group of lines before the first `diff --git` header has no filename), so the
element type is `Option String`. -/
structure ChunkMetadata where
  chunk_index : Nat
  total_chunks : Nat
  file_count : Nat
  token_estimate : Nat
  files : List (Option String)
deriving DecidableEq

/-- `ChunkingStrategy` enum. -/
inductive ChunkingStrategy where
  | FILE_BOUNDARY | HUNK_BOUNDARY | SIZE_BASED
deriving DecidableEq

/-- `MODEL_CAPABILITIES` table: model name, context window, output tokens. -/
def MODEL_CAPABILITIES : List (String × Nat × Nat) :=
  [("gpt-4", 128000, 4096),
   ("gpt-4-turbo", 128000, 4096),
   ("gpt-4-32k", 32000, 4096),
   ("gpt-3.5-turbo", 16000, 4096),
   ("gpt-3.5-turbo-16k", 16000, 4096),
   ("claude-3-opus", 200000, 4096),
   ("claude-3-sonnet", 200000, 4096),
   ("default", 8000, 2048)]

/-- `TokenLimitGuard._detect_model_capabilities`: exact match, then prefix
match in table order, then the `"default"` entry. -/
def detect_model_capabilities (model : String) : Nat × Nat :=
  match MODEL_CAPABILITIES.find? (fun e => e.1 = model) with
  | some e => e.2
  | none =>
    match MODEL_CAPABILITIES.find? (fun e => isPrefixC e.1.toList model.toList) with
    | some e => e.2
    | none => (8000, 2048)

/-- Post-`__init__` state of a `TokenLimitGuard`.  The source computes
`max_tokens = int(context_window * safety_margin)` in floating point at
construction; here the resulting integer is the field, so every reachable
profile (model, margin, divisor) is covered by some `TokenLimitGuard`
value. -/
structure TokenLimitGuard where
  model : String
  max_tokens : Nat
  chars_per_token : Nat

/-- `TokenLimitGuard.estimate_tokens`: `len(text) // chars_per_token`.
(`chars_per_token = 0` raises `ZeroDivisionError` in Python; theorems that
depend on the estimate assume a positive divisor.) -/
def estimate_tokens (G : TokenLimitGuard) (text : String) : Nat :=
  text.length / G.chars_per_token

/-- `TokenLimitGuard.check_token_limit`. -/
def check_token_limit (G : TokenLimitGuard) (text : String) : TokenEstimate :=
  let text_length := text.length
  let estimated_tokens := estimate_tokens G text
  { text_length := text_length,
    estimated_tokens := estimated_tokens,
    max_tokens := G.max_tokens,
    usage_percentage := mkRat (estimated_tokens * 100) G.max_tokens,
    is_safe := decide (estimated_tokens ≤ G.max_tokens),
    model := G.model }

/-! ### Chunking -/

/-- `re.search(r'diff --git a/(.*?) b/', line).group(1)` with fallback
`"unknown"`.  The lazy group takes the shortest span up to the first
`" b/"` after the first `"diff --git a/"`; lines produced by `splitlines`
contain no newline, so the dot class never blocks. -/
def extractFilename (line : List Char) : String :=
  match findSubFrom (line.length + 1) line "diff --git a/".toList 0 with
  | none => "unknown"
  | some p =>
    match findSubFrom (line.length + 1) line " b/".toList (p + 13) with
    | none => "unknown"
    | some q => String.mk ((line.drop (p + 13)).take (q - (p + 13)))

/-- The first loop of `_chunk_by_file_boundaries`: group the lines into
per-file diffs.  A `diff --git` line flushes the current group (when
non-empty), updates the filename, and starts the next group with itself. -/
def splitFileDiffsGo : List (List Char) → Option String → List (List Char) →
    List (Option String × List Char)
  | [], fname, cur =>
    if cur.isEmpty then [] else [(fname, joinSep "\n".toList cur)]
  | line :: rest, fname, cur =>
    if isPrefixC "diff --git".toList line then
      let fname' := some (extractFilename line)
      if cur.isEmpty then splitFileDiffsGo rest fname' (cur ++ [line])
      else (fname, joinSep "\n".toList cur) :: splitFileDiffsGo rest fname' [line]
    else splitFileDiffsGo rest fname (cur ++ [line])

def splitFileDiffs (lines : List (List Char)) : List (Option String × List Char) :=
  splitFileDiffsGo lines none []

/-- Close the current chunk of whole files: text is `"\n\n".join(current_chunk)`,
`chunk_index` is the running chunk count, `total_chunks` is backfilled later. -/
def closeFileChunk (G : TokenLimitGuard) (nchunks : Nat) (cur : List (List Char))
    (files : List (Option String)) : String × ChunkMetadata :=
  let text := String.mk (joinSep "\n\n".toList cur)
  (text, { chunk_index := nchunks, total_chunks := 0, file_count := files.length,
           token_estimate := estimate_tokens G text, files := files })

/-- Close a chunk of hunks: text is `"".join(current_chunk)`. -/
def closeHunkChunk (G : TokenLimitGuard) (nchunks : Nat) (cur : List (List Char))
    (fileCount : Nat) (files : List (Option String)) : String × ChunkMetadata :=
  let text := String.mk (joinSep [] cur)
  (text, { chunk_index := nchunks, total_chunks := 0, file_count := fileCount,
           token_estimate := estimate_tokens G text, files := files })

/-- `TokenLimitGuard._split_large_file`: split one oversized file diff on
`"@@"` hunk markers, repeating the file header at the start of every chunk.
The final chunk is only emitted when it holds more than just the header. -/
def splitLargeFileGo (G : TokenLimitGuard) (filename : Option String)
    (maxChars : Nat) (header : List Char) :
    List (List Char) → List (String × ChunkMetadata) → List (List Char) → Nat →
    List (String × ChunkMetadata)
  | [], chunks, cur, _ =>
    let chunks1 :=
      if 1 < cur.length then chunks ++ [closeHunkChunk G chunks.length cur 1 [filename]]
      else chunks
    chunks1.map (fun c => (c.1, { c.2 with total_chunks := chunks1.length }))
  | hunk :: rest, chunks, cur, size =>
    let hws := "@@".toList ++ hunk
    let hsize := hws.length
    if maxChars < size + hsize then
      splitLargeFileGo G filename maxChars header rest
        (chunks ++ [closeHunkChunk G chunks.length cur 1 [filename]])
        [header, hws] (header.length + hsize)
    else
      splitLargeFileGo G filename maxChars header rest chunks (cur ++ [hws]) (size + hsize)

def split_large_file (G : TokenLimitGuard) (file_diff : List Char)
    (filename : Option String) (maxChars : Nat) : List (String × ChunkMetadata) :=
  let hunks := splitOnSep file_diff "@@".toList
  let header := hunks.headD []
  splitLargeFileGo G filename maxChars header hunks.tail [] [header] header.length

/-- The grouping loop of `_chunk_by_file_boundaries`. -/
def fileChunksGo (G : TokenLimitGuard) (maxChars : Nat) :
    List (Option String × List Char) → List (String × ChunkMetadata) →
    List (List Char) → List (Option String) → Nat →
    List (String × ChunkMetadata)
  | [], chunks, cur, files, _ =>
    if cur.isEmpty then chunks else chunks ++ [closeFileChunk G chunks.length cur files]
  | (fname, fd) :: rest, chunks, cur, files, size =>
    let fsize := fd.length
    if maxChars < fsize then
      let chunks1 :=
        if cur.isEmpty then chunks else chunks ++ [closeFileChunk G chunks.length cur files]
      fileChunksGo G maxChars rest (chunks1 ++ split_large_file G fd fname maxChars) [] [] 0
    else if size + fsize ≤ maxChars then
      fileChunksGo G maxChars rest chunks (cur ++ [fd]) (files ++ [fname]) (size + fsize)
    else
      let chunks1 :=
        if cur.isEmpty then chunks else chunks ++ [closeFileChunk G chunks.length cur files]
      fileChunksGo G maxChars rest chunks1 [fd] [fname] fsize

/-- The final backfill loop of `_chunk_by_file_boundaries`: reassign
`chunk_index = i` and `total_chunks = len(chunks)` for every chunk. -/
def backfillAll (chunks : List (String × ChunkMetadata)) :
    List (String × ChunkMetadata) :=
  chunks.enum.map (fun ic =>
    (ic.2.1, { ic.2.2 with chunk_index := ic.1, total_chunks := chunks.length }))

/-- `TokenLimitGuard._chunk_by_file_boundaries`. -/
def chunk_by_file_boundaries (G : TokenLimitGuard) (diff_text : List Char)
    (maxChars : Nat) : List (String × ChunkMetadata) :=
  let file_diffs := splitFileDiffs (pySplitlines diff_text)
  backfillAll (fileChunksGo G maxChars file_diffs [] [] [] 0)

/-- The loop of `_chunk_by_hunk_boundaries`.  Note two quirks of the source,
reproduced exactly: the `"@@"` separator is only restored once at least one
chunk has been *closed* (`"@@" + hunk if chunks else hunk`), and no final
backfill loop runs — only the last chunk receives `total_chunks`. -/
def hunkChunksGo (G : TokenLimitGuard) (maxChars : Nat) :
    List (List Char) → List (String × ChunkMetadata) → List (List Char) → Nat →
    List (String × ChunkMetadata)
  | [], chunks, cur, _ =>
    if cur.isEmpty then chunks
    else chunks ++
      [(String.mk (joinSep [] cur),
        { chunk_index := chunks.length, total_chunks := chunks.length + 1,
          file_count := 0, token_estimate := estimate_tokens G (String.mk (joinSep [] cur)),
          files := [] })]
  | hunk :: rest, chunks, cur, size =>
    let hws := if !chunks.isEmpty then "@@".toList ++ hunk else hunk
    let hsize := hws.length
    if maxChars < size + hsize && !cur.isEmpty then
      hunkChunksGo G maxChars rest (chunks ++ [closeHunkChunk G chunks.length cur 0 []])
        [hws] hsize
    else
      hunkChunksGo G maxChars rest chunks (cur ++ [hws]) (size + hsize)

/-- `TokenLimitGuard._chunk_by_hunk_boundaries`. -/
def chunk_by_hunk_boundaries (G : TokenLimitGuard) (diff_text : List Char)
    (maxChars : Nat) : List (String × ChunkMetadata) :=
  hunkChunksGo G maxChars (splitOnSep diff_text "@@".toList) [] [] 0

/-- The loop of `_chunk_by_size`: `for i in range(0, len(text), max_chars)`.
Fuel-driven; `text.length` steps suffice whenever `maxChars ≥ 1` (for
`maxChars = 0` the Python `range` raises `ValueError`). -/
def sizeChunksGo (G : TokenLimitGuard) (text : List Char) (maxChars : Nat) :
    Nat → Nat → Nat → List (String × ChunkMetadata)
  | 0, _, _ => []
  | fuel + 1, pos, idx =>
    if pos < text.length then
      let ct := String.mk ((text.drop pos).take maxChars)
      (ct, { chunk_index := idx, total_chunks := 0, file_count := 0,
             token_estimate := estimate_tokens G ct, files := [] })
        :: sizeChunksGo G text maxChars fuel (pos + maxChars) (idx + 1)
    else []

/-- `TokenLimitGuard._chunk_by_size` (with the final `total_chunks` loop). -/
def chunk_by_size (G : TokenLimitGuard) (text : List Char) (maxChars : Nat) :
    List (String × ChunkMetadata) :=
  let chunks := sizeChunksGo G text maxChars text.length 0 0
  chunks.map (fun c => (c.1, { c.2 with total_chunks := chunks.length }))

/-- `TokenLimitGuard.chunk_text_smartly` (the `overlap_lines` parameter is
accepted and never used, as in the source). -/
def chunk_text_smartly (G : TokenLimitGuard) (text : String)
    (strategy : ChunkingStrategy := .FILE_BOUNDARY) (overlap_lines : Nat := 5) :
    List (String × ChunkMetadata) :=
  let maxChars := G.max_tokens * G.chars_per_token
  match strategy with
  | .FILE_BOUNDARY => chunk_by_file_boundaries G text.toList maxChars
  | .HUNK_BOUNDARY => chunk_by_hunk_boundaries G text.toList maxChars
  | .SIZE_BASED => chunk_by_size G text.toList maxChars

end Gate

namespace Gate

/-! ## Concrete instances used by the claims -/

/-- The single finding produced by scanning `123-45-6789` with the default
tables and whitelisting applied. -/
def ssnTestFinding : SecretMatch :=
  { pattern_name := "ssn", severity := .CRITICAL, matched_text := "123-45-6789",
    line_number := 1, context := "123-45-6789", file_path := none,
    is_whitelisted := true, confidence := mkRat 85 100 }

/-- Guard used for the chunk-completeness failing input: `max_tokens = 8`,
`chars_per_token = 4` (budget 32 characters); reachable e.g. as model
`"default"` (context 8000) with `safety_margin = 0.004`. -/
def guardC2 : TokenLimitGuard :=
  { model := "default", max_tokens := 8, chars_per_token := 4 }

/-- 40-character diff with no `diff --git` header and no `@@` hunk marker. -/
def textC2 : String := "aaaaaaaaaaaaaaaaaaaaaaaaaaaaaaaaaaaaaaaa"

/-- Guard used for the chunk-safety failing input: `max_tokens = 20`,
`chars_per_token = 4` (budget 80 characters). -/
def guardC3 : TokenLimitGuard :=
  { model := "default", max_tokens := 20, chars_per_token := 4 }

/-- Four-file diff of file sizes 27, 27, 26 and 18: the first three files sum
to exactly the 80-character budget, so grouping accepts them, but the chunk
text joins them with `"\n\n"` and exceeds the budget. -/
def textC3 : String :=
  "diff --git a/x b/x\n12345678\ndiff --git a/y b/y\n12345678\ndiff --git a/z b/z\n1234567\ndiff --git a/w b/w"

/-- Guard used for the hunk-boundary backfill counterexample: budget 8
characters. -/
def guardC9 : TokenLimitGuard :=
  { model := "default", max_tokens := 2, chars_per_token := 4 }

/-- Three-hunk text that the hunk-boundary strategy splits into two chunks. -/
def textC9 : String := "aaaa@@bbbb@@cccc"

/-- A line whose `generic_api_key` regex match spans 69 characters
(`api_key: ` followed by 60 `a`s) — longer than the 50-character preview. -/
def apiKeyText : String :=
  "api_key: aaaaaaaaaaaaaaaaaaaaaaaaaaaaaaaaaaaaaaaaaaaaaaaaaaaaaaaaaaaa"

/-- The first 50 characters of that match: `api_key: ` plus 41 `a`s. -/
def apiKeyPreview : String := "api_key: aaaaaaaaaaaaaaaaaaaaaaaaaaaaaaaaaaaaaaaaa"

/-- The variant of the sanitizer with one extra whitelist entry appended to a
category, i.e. the scanner constructed with `whitelists={cat: [p]}` on top of
the same base tables (`__init__` extends the category in place). -/
def withExtraWhitelist (S : SecretSanitizer) (cat : String) (p : Re) :
    SecretSanitizer :=
  { S with compiled_whitelists := extendWhitelist S.compiled_whitelists cat p }

end Gate

open Gate

/-- C1 counterexample: scanning `123-45-6789` with the default tables and
`apply_whitelist=True` leaves the gate at ALLOW (`is_safe = true`), because
`123-45-6789` is itself in the default `test_ssns` whitelist; the claim
asserts the verdict is BLOCK (`is_safe = false`). -/
theorem C1_counterexample :
    (validate_for_ai_processing defaultSanitizer "123-45-6789" none true).1 = true := by
  decide

/-- C1 (amended): scanning `123-45-6789` with the default tables and
whitelisting applied yields exactly one CRITICAL finding with detector name
`ssn`, but the finding is marked `is_whitelisted = true` (the value is the
common test SSN listed in the default `test_ssns` whitelist), and the gate
decision is ALLOW: `validate_for_ai_processing` returns `is_safe = true`
with that single suppressed finding. -/
theorem C1_amended :
    scan_text defaultSanitizer "123-45-6789" none true = [ssnTestFinding]
    ∧ validate_for_ai_processing defaultSanitizer "123-45-6789" none true
      = (true, [ssnTestFinding]) := by
  constructor
  · decide
  · decide

/-- C2 evaluation at the failing input: the estimate reports unsafe
(10 estimated tokens > 8 budget), yet `chunk_text_smartly` under the default
file-boundary strategy returns no chunks at all — the single oversized file
has no `@@` hunk marker, so `_split_large_file` emits nothing — and the
concatenation of the chunk texts is empty rather than the original text. -/
theorem C2_code_evaluation :
    (check_token_limit guardC2 textC2).is_safe = false
    ∧ chunk_text_smartly guardC2 textC2 .FILE_BOUNDARY 5 = []
    ∧ String.join ((chunk_text_smartly guardC2 textC2 .FILE_BOUNDARY 5).map (fun c => c.1))
        = ""
    ∧ textC2 ≠ "" := by
  refine ⟨by decide, by decide, by decide, by decide⟩

/-- C3 evaluation at the failing input: the original text is unsafe
(25 estimated tokens > 20 budget) so chunking is triggered; the file-boundary
strategy produces two chunks, and the first one — built from three whole files
whose sizes sum to exactly the budget but joined with `"\n\n"` — estimates to
21 tokens, failing the budget check, while `ChunkMetadata` has no hard-split
flag of any kind. -/
theorem C3_code_evaluation :
    (check_token_limit guardC3 textC3).is_safe = false
    ∧ (chunk_text_smartly guardC3 textC3 .FILE_BOUNDARY 5).map
        (fun c => ((check_token_limit guardC3 c.1).is_safe, c.2.token_estimate))
        = [(false, 21), (true, 4)]
    ∧ ¬ (∀ c ∈ chunk_text_smartly guardC3 textC3 .FILE_BOUNDARY 5,
          (check_token_limit guardC3 c.1).is_safe = true) := by
  refine ⟨by decide, by decide, by decide⟩

/-- C6 counterexample: scanning a text containing only `127.0.0.1` with the
default tables (whitelist category `test_ips` active, whitelisting applied)
records no finding at all — the `ip_address` match is whitelisted but its
confidence 0.6 is below the 0.7 threshold, so `scan_text` drops it instead
of retaining it with `suppressed=true`. -/
theorem C6_counterexample :
    ¬ ∃ m ∈ scan_text defaultSanitizer "127.0.0.1" none true,
        m.is_whitelisted = true := by
  decide

/-- C6 (amended): for text containing only `127.0.0.1` with the `test_ips`
whitelist active, the scan output is empty (the match is whitelisted but its
0.6 confidence is below the 0.7 reporting threshold, so the finding is
dropped, not recorded as suppressed) and the overall verdict is ALLOW:
`validate_for_ai_processing` returns `is_safe = true` with no findings. -/
theorem C6_amended :
    scan_text defaultSanitizer "127.0.0.1" none true = []
    ∧ validate_for_ai_processing defaultSanitizer "127.0.0.1" none true = (true, []) := by
  refine ⟨by decide, by decide⟩

/-- C9 counterexample: under the hunk-boundary strategy the returned chunks
do not all carry `total_chunks = n`; chunking `aaaa@@bbbb@@cccc` with an
8-character budget yields two chunks whose first has `total_chunks = 0`. -/
theorem C9_counterexample :
    ¬ (∀ c ∈ chunk_text_smartly guardC9 textC9 .HUNK_BOUNDARY 5,
        c.2.total_chunks = (chunk_text_smartly guardC9 textC9 .HUNK_BOUNDARY 5).length) := by
  decide

/-- C5 counterexample: a blocking outcome with an empty findings list.  With
a sensitive file path (`.env`) the gate returns `is_safe = false` together
with `[]`, so a BLOCK verdict is not always accompanied by a non-empty list
of triggering findings. -/
theorem C5_counterexample :
    validate_for_ai_processing defaultSanitizer "x" (some ".env") true = (false, []) := by
  decide

namespace Gate

/-! ## Helper lemmas about the gate decision -/

/-- With no file path, `validate_for_ai_processing` is exactly the decision
core applied to the scan result. -/
theorem validate_none_eq (S : SecretSanitizer) (text : String) (b : Bool) :
    validate_for_ai_processing S text none b
      = gate_decision S.confidence_threshold b (scan_text S text none true) := rfl

/-- The gate always returns the full match list. -/
theorem gate_decision_snd (θ : ℚ) (b : Bool) (ms : List SecretMatch) :
    (gate_decision θ b ms).2 = ms := by
  unfold gate_decision
  dsimp only
  split <;> rfl

/-- A blocking decision requires `block_on_detection` and a non-suppressed,
at-threshold CRITICAL/HIGH finding in the list. -/
theorem gate_decision_block_exists (θ : ℚ) (b : Bool) (ms : List SecretMatch)
    (h : (gate_decision θ b ms).1 = false) :
    b = true ∧ ∃ m ∈ ms, m.is_whitelisted = false ∧ θ ≤ m.confidence
      ∧ isCritHigh m.severity = true := by
  unfold gate_decision at h
  dsimp only at h
  split at h
  case isTrue hc =>
    rw [Bool.and_eq_true] at hc
    obtain ⟨hne, hb⟩ := hc
    refine ⟨hb, ?_⟩
    rw [Bool.not_eq_true', List.isEmpty_eq_false_iff_exists_mem] at hne
    obtain ⟨m, hm⟩ := hne
    rw [List.mem_filter] at hm
    obtain ⟨hm1, hcrit⟩ := hm
    rw [List.mem_filter] at hm1
    obtain ⟨hmem, hflags⟩ := hm1
    rw [Bool.and_eq_true, Bool.not_eq_true', decide_eq_true_eq] at hflags
    exact ⟨m, hmem, hflags.1, hflags.2, hcrit⟩
  case isFalse => simp at h

/-- Marking any one finding as suppressed can never turn a non-blocking
decision into a blocking one. -/
theorem gate_decision_suppress_mono (θ : ℚ) (b : Bool) (ms : List SecretMatch)
    (i : Nat) (hi : i < ms.length)
    (h : (gate_decision θ b ms).1 = true) :
    (gate_decision θ b
        (ms.set i { ms.get ⟨i, hi⟩ with is_whitelisted := true })).1 = true := by
  unfold gate_decision at h ⊢
  dsimp only at h ⊢
  split at h
  case isTrue => simp at h
  case isFalse hc =>
    split
    case isFalse => rfl
    case isTrue hc' =>
      exfalso
      apply hc
      rw [Bool.and_eq_true] at hc' ⊢
      obtain ⟨hne, hb⟩ := hc'
      refine ⟨?_, hb⟩
      rw [Bool.not_eq_true', List.isEmpty_eq_false_iff_exists_mem] at hne ⊢
      obtain ⟨m, hm⟩ := hne
      rw [List.mem_filter] at hm
      obtain ⟨hm1, hcrit⟩ := hm
      rw [List.mem_filter] at hm1
      obtain ⟨hmem, hflags⟩ := hm1
      rcases List.mem_or_eq_of_mem_set hmem with hmem' | heq
      · exact ⟨m, List.mem_filter.mpr ⟨List.mem_filter.mpr ⟨hmem', hflags⟩, hcrit⟩⟩
      · rw [Bool.and_eq_true, Bool.not_eq_true'] at hflags
        rw [heq] at hflags
        simp at hflags
  
/-- Every finding a scan ever emits stores at most 50 characters of matched
text (`matched_text=matched_text[:50]`). -/
theorem scan_matched_text_le (S : SecretSanitizer) (text : String)
    (fp : Option String) (awl : Bool) :
    ∀ m ∈ scan_text S text fp awl, m.matched_text.length ≤ 50 := by
  intro m hm
  unfold scan_text at hm
  rw [List.mem_flatMap] at hm
  obtain ⟨pat, _, hm⟩ := hm
  rw [List.mem_flatMap] at hm
  obtain ⟨ln, _, hm⟩ := hm
  rw [List.mem_flatMap] at hm
  obtain ⟨span, _, hm⟩ := hm
  unfold mkFinding at hm
  dsimp only at hm
  have hshape : ∀ (c : Prop) (inst : Decidable c) (f : SecretMatch),
      m ∈ (@ite _ c inst [f] []) → m = f := by
    intro c inst f hmf
    split at hmf
    · simpa using hmf
    · simp at hmf
  rw [hshape _ _ _ hm]
  simp [String.length]

end Gate

open Gate

/-- C4: suppressed findings never contribute to a BLOCK verdict.  With no
file path the gate is exactly the decision core over the scanned findings;
a blocking outcome requires `block_on_detection` together with some finding
that is not suppressed (`is_whitelisted = false`), has confidence at or
above the threshold, and is CRITICAL or HIGH; flipping any finding's
suppressed flag to `true` can never turn a non-blocking outcome into a
blocking one; and the full finding list — suppressed findings included — is
returned rather than deleted. -/
theorem C4_suppressed_never_block :
    (∀ (S : SecretSanitizer) (text : String) (b : Bool),
      validate_for_ai_processing S text none b
        = gate_decision S.confidence_threshold b (scan_text S text none true))
    ∧ (∀ (θ : ℚ) (b : Bool) (ms : List SecretMatch),
        (gate_decision θ b ms).1 = false →
        b = true ∧ ∃ m ∈ ms, m.is_whitelisted = false ∧ θ ≤ m.confidence
          ∧ isCritHigh m.severity = true)
    ∧ (∀ (θ : ℚ) (b : Bool) (ms : List SecretMatch) (i : Nat) (hi : i < ms.length),
        (gate_decision θ b ms).1 = true →
        (gate_decision θ b
            (ms.set i { ms.get ⟨i, hi⟩ with is_whitelisted := true })).1 = true)
    ∧ (∀ (θ : ℚ) (b : Bool) (ms : List SecretMatch), (gate_decision θ b ms).2 = ms) :=
  ⟨validate_none_eq, gate_decision_block_exists, gate_decision_suppress_mono,
   gate_decision_snd⟩

/-- C4 witness: at the concrete suppressed SSN finding, a blocking outcome on
the unsuppressed variant yields an active CRITICAL finding; the
already-allowing singleton stays allowing after suppressing its only
element; and the match list is returned unchanged. -/
theorem C4_witness :
    (∃ m ∈ [{ ssnTestFinding with is_whitelisted := false }],
        m.is_whitelisted = false ∧ mkRat 7 10 ≤ m.confidence
          ∧ isCritHigh m.severity = true)
    ∧ (gate_decision (mkRat 7 10) true
        ([ssnTestFinding].set 0
          { [ssnTestFinding].get ⟨0, by decide⟩ with is_whitelisted := true })).1 = true
    ∧ (gate_decision (mkRat 7 10) true [ssnTestFinding]).2 = [ssnTestFinding] := by
  refine ⟨?_, ?_, ?_⟩
  · exact (C4_suppressed_never_block.2.1 (mkRat 7 10) true
      [{ ssnTestFinding with is_whitelisted := false }] (by decide)).2
  · exact C4_suppressed_never_block.2.2.1 (mkRat 7 10) true [ssnTestFinding] 0
      (by decide) (by decide)
  · exact C4_suppressed_never_block.2.2.2 (mkRat 7 10) true [ssnTestFinding]

/-- C5 (amended): every BLOCK produced by content scanning carries its
triggering findings.  When the gate blocks while the file path is absent or
not flagged sensitive (so the block is not the sensitive-file
short-circuit, which returns an empty list — see the counterexample), the
returned findings list is non-empty, contains a non-suppressed at-threshold
CRITICAL/HIGH finding that caused the block, and every returned finding
previews at most 50 characters of matched text. -/
theorem C5_amended (S : SecretSanitizer) (text : String)
    (filePath : Option String) (b : Bool)
    (hfp : ∀ fp ∈ filePath, (is_sensitive_file S fp).1 = false)
    (h : (validate_for_ai_processing S text filePath b).1 = false) :
    (validate_for_ai_processing S text filePath b).2 ≠ []
    ∧ (∃ m ∈ (validate_for_ai_processing S text filePath b).2,
        m.is_whitelisted = false ∧ S.confidence_threshold ≤ m.confidence
          ∧ isCritHigh m.severity = true)
    ∧ (∀ m ∈ (validate_for_ai_processing S text filePath b).2,
        m.matched_text.length ≤ 50) := by
  have hfb : validate_for_ai_processing S text filePath b
      = gate_decision S.confidence_threshold b (scan_text S text filePath true) := by
    unfold validate_for_ai_processing
    cases filePath with
    | none => rfl
    | some fp =>
      dsimp only
      rw [hfp fp (Option.mem_def.mpr rfl), Bool.and_false]
      rfl
  rw [hfb] at h ⊢
  rw [gate_decision_snd]
  obtain ⟨-, m, hm, hflags⟩ := gate_decision_block_exists _ _ _ h
  exact ⟨List.ne_nil_of_mem hm, ⟨m, hm, hflags⟩,
    scan_matched_text_le S text filePath true⟩

/-- C5 witness: a text holding a model-provider key blocks under a present,
non-sensitive file path, and the guarantees of the amended claim hold
there. -/
theorem C5_witness :
    ((validate_for_ai_processing defaultSanitizer
        "sk-aaaaaaaaaaaaaaaaaaaaaaaaaaaaaaaaaaaaaaaaaaaaaaaa"
        (some "app.py") true).1 = false)
    ∧ (validate_for_ai_processing defaultSanitizer
        "sk-aaaaaaaaaaaaaaaaaaaaaaaaaaaaaaaaaaaaaaaaaaaaaaaa"
        (some "app.py") true).2 ≠ [] := by
  refine ⟨by decide, ?_⟩
  refine (C5_amended defaultSanitizer
    "sk-aaaaaaaaaaaaaaaaaaaaaaaaaaaaaaaaaaaaaaaaaaaaaaaa"
    (some "app.py") true ?_ (by decide)).1
  intro fp hfp
  rw [Option.mem_def] at hfp
  injection hfp with hfp'
  subst hfp'
  decide

/-- C7: deterministic redaction.  Under `replace` mode the substitution
string is a function of the detector name alone — in particular of the
(seed, detector-name, matched-text) triple — so any two findings for the
same detector redact to the identical placeholder; concretely, the same SSN
occurring on two lines is replaced by the same `[REDACTED_SSN]` token both
times. -/
theorem C7_deterministic_redaction :
    (∀ m₁ m₂ : SecretMatch, m₁.pattern_name = m₂.pattern_name →
        redactionFor "replace" m₁ = redactionFor "replace" m₂)
    ∧ (sanitize_text defaultSanitizer "ssn is 111-22-3333\nssn is 111-22-3333"
        "replace").1 = "ssn is [REDACTED_SSN]\nssn is [REDACTED_SSN]" := by
  refine ⟨?_, by decide⟩
  intro m₁ m₂ h
  simp [redactionFor, h]

/-- C7 witness: two findings for the `ssn` detector at different lines
receive the identical replacement token. -/
theorem C7_witness :
    redactionFor "replace" ssnTestFinding
      = redactionFor "replace" { ssnTestFinding with line_number := 2 } :=
  C7_deterministic_redaction.1 _ _ rfl

/-- C10: the scanner stores only the first 50 characters of each matched
span, and `sanitize_text` substitutes the first occurrence of that
50-character preview, so the tail of an over-50-character secret survives
redaction.  Concretely: the `generic_api_key` match on `apiKeyText` spans
69 characters, the stored `matched_text` is its 50-character prefix, and the
sanitized output still ends with the last 19 characters of the secret. -/
theorem C10_preview_truncation :
    (∀ (S : SecretSanitizer) (text : String) (fp : Option String) (awl : Bool),
        ∀ m ∈ scan_text S text fp awl, m.matched_text.length ≤ 50)
    ∧ findIter genericApiKeyRe apiKeyText.toList = [(0, 69)]
    ∧ (scan_text defaultSanitizer apiKeyText none false).map
        (fun m => (m.pattern_name, m.matched_text)) = [("generic_api_key", apiKeyPreview)]
    ∧ (sanitize_text defaultSanitizer apiKeyText "replace").1
        = "[REDACTED_GENERIC_API_KEY]aaaaaaaaaaaaaaaaaaa" := by
  refine ⟨scan_matched_text_le, by decide, by decide, by decide⟩

/-- C10 witness: the general truncation bound applied at the concrete SSN
finding produced by scanning `123-45-6789`. -/
theorem C10_witness :
    ssnTestFinding ∈ scan_text defaultSanitizer "123-45-6789" none true
    ∧ ssnTestFinding.matched_text.length ≤ 50 :=
  ⟨by decide,
   C10_preview_truncation.1 defaultSanitizer "123-45-6789" none true
     ssnTestFinding (by decide)⟩

namespace Gate

/-! ## Helper lemmas for whitelist monotonicity -/

/-- Appending one entry to a category changes the category's own pattern list
by at most an appended pattern (map branch of `extendWhitelist`). -/
theorem wlFind_map_ext (wls : List (String × List Re)) (cat : String) (p : Re)
    (c : String) :
    wlFind (wls.map (fun e => if e.1 = cat then (e.1, e.2 ++ [p]) else e)) c
        = wlFind wls c
    ∨ wlFind (wls.map (fun e => if e.1 = cat then (e.1, e.2 ++ [p]) else e)) c
        = wlFind wls c ++ [p] := by
  induction wls with
  | nil => exact Or.inl rfl
  | cons e rest ih =>
    simp only [List.map_cons]
    by_cases hec : e.1 = cat
    · rw [if_pos hec]
      by_cases hc : e.1 = c
      · right
        simp [wlFind, hc]
      · rcases ih with h | h
        · left
          simp [wlFind, hc, h]
        · right
          simp [wlFind, hc, h]
    · rw [if_neg hec]
      by_cases hc : e.1 = c
      · left
        simp [wlFind, hc]
      · rcases ih with h | h
        · left
          simp [wlFind, hc, h]
        · right
          simp [wlFind, hc, h]

/-- Same statement for the append branch of `extendWhitelist`. -/
theorem wlFind_append_single (wls : List (String × List Re)) (cat : String)
    (p : Re) (c : String) :
    wlFind (wls ++ [(cat, [p])]) c = wlFind wls c
    ∨ wlFind (wls ++ [(cat, [p])]) c = wlFind wls c ++ [p] := by
  induction wls with
  | nil =>
    by_cases hc : cat = c
    · right
      simp [wlFind, hc]
    · left
      simp [wlFind, hc]
  | cons e rest ih =>
    by_cases hc : e.1 = c
    · left
      simp [wlFind, hc]
    · rcases ih with h | h
      · left
        simp [wlFind, hc, h]
      · right
        simp [wlFind, hc, h]

/-- `extendWhitelist` changes any category's pattern list by at most an
appended pattern. -/
theorem wlFind_extend (wls : List (String × List Re)) (cat : String) (p : Re)
    (c : String) :
    wlFind (extendWhitelist wls cat p) c = wlFind wls c
    ∨ wlFind (extendWhitelist wls cat p) c = wlFind wls c ++ [p] := by
  unfold extendWhitelist
  split
  · exact wlFind_map_ext wls cat p c
  · exact wlFind_append_single wls cat p c

/-- Whitelist membership is monotone under adding an entry. -/
theorem is_whitelistedB_extend_mono (wls : List (String × List Re))
    (cat : String) (p : Re) (t : List Char) (c : String)
    (h : is_whitelistedB wls t c = true) :
    is_whitelistedB (extendWhitelist wls cat p) t c = true := by
  unfold is_whitelistedB at h ⊢
  rcases wlFind_extend wls cat p c with he | he <;> rw [he]
  · exact h
  · rw [List.any_append]
    simp [h]

/-- The suppression flag is monotone under adding a whitelist entry. -/
theorem whitelistFlag_mono (wls : List (String × List Re)) (cat : String)
    (p : Re) (applyWl : Bool) (pname : String) (mt : List Char)
    (h : whitelistFlag wls applyWl pname mt = true) :
    whitelistFlag (extendWhitelist wls cat p) applyWl pname mt = true := by
  unfold whitelistFlag at h ⊢
  rw [Bool.and_eq_true] at h ⊢
  refine ⟨h.1, ?_⟩
  have h2 := h.2
  rw [Bool.or_eq_true, Bool.or_eq_true, Bool.or_eq_true] at h2 ⊢
  rcases h2 with ((h3 | h3) | h3) | h3
  · refine Or.inl (Or.inl (Or.inl ?_))
    rw [Bool.and_eq_true] at h3 ⊢
    exact ⟨h3.1, is_whitelistedB_extend_mono _ _ _ _ _ h3.2⟩
  · refine Or.inl (Or.inl (Or.inr ?_))
    rw [Bool.and_eq_true] at h3 ⊢
    exact ⟨h3.1, is_whitelistedB_extend_mono _ _ _ _ _ h3.2⟩
  · refine Or.inl (Or.inr ?_)
    rw [Bool.and_eq_true] at h3 ⊢
    exact ⟨h3.1, is_whitelistedB_extend_mono _ _ _ _ _ h3.2⟩
  · refine Or.inr ?_
    rw [Bool.and_eq_true] at h3 ⊢
    exact ⟨h3.1, is_whitelistedB_extend_mono _ _ _ _ _ h3.2⟩

/-- Pointwise effect of one extra whitelist entry on the innermost scan step:
the emitted list has the same length (the finding is still reported), and
the number of non-suppressed findings in it can only shrink. -/
theorem mkFinding_extend (S : SecretSanitizer) (cat : String) (p : Re)
    (applyWl : Bool) (fp : Option String) (pname : String)
    (sev : SecretSeverity) (conf : ℚ) (ln : Nat) (line : List Char)
    (span : Nat × Nat) :
    (mkFinding (withExtraWhitelist S cat p) applyWl fp pname sev conf ln line span).length
      = (mkFinding S applyWl fp pname sev conf ln line span).length
    ∧ (mkFinding (withExtraWhitelist S cat p) applyWl fp pname sev conf ln line span).countP
        (fun m => !m.is_whitelisted)
      ≤ (mkFinding S applyWl fp pname sev conf ln line span).countP
        (fun m => !m.is_whitelisted) := by
  unfold mkFinding withExtraWhitelist
  dsimp only
  split
  · refine ⟨rfl, ?_⟩
    simp only [List.countP_cons, List.countP_nil, Nat.zero_add]
    by_cases hw : whitelistFlag S.compiled_whitelists applyWl pname
        ((line.drop span.1).take (span.2 - span.1)) = true
    · rw [whitelistFlag_mono S.compiled_whitelists cat p applyWl pname _ hw, hw]
    · rw [Bool.not_eq_true] at hw
      rw [hw]
      split <;> simp
  · exact ⟨rfl, le_refl 0⟩

/-- Lengths of flatMaps agree when they agree pointwise. -/
theorem length_flatMap_congr {α β : Type} (l : List α) (f g : α → List β)
    (h : ∀ x ∈ l, (f x).length = (g x).length) :
    (l.flatMap f).length = (l.flatMap g).length := by
  induction l with
  | nil => rfl
  | cons x xs ih =>
    simp only [List.flatMap_cons, List.length_append]
    rw [h x (List.mem_cons_self x xs),
        ih (fun y hy => h y (List.mem_cons_of_mem x hy))]

/-- `countP` over a flatMap is monotone in the pointwise counts. -/
theorem countP_flatMap_le {α β : Type} (l : List α) (f g : α → List β)
    (p : β → Bool) (h : ∀ x ∈ l, (f x).countP p ≤ (g x).countP p) :
    (l.flatMap f).countP p ≤ (l.flatMap g).countP p := by
  induction l with
  | nil => exact le_refl 0
  | cons x xs ih =>
    simp only [List.flatMap_cons, List.countP_append]
    exact Nat.add_le_add (h x (List.mem_cons_self x xs))
      (ih (fun y hy => h y (List.mem_cons_of_mem x hy)))

end Gate

open Gate

/-- C8: whitelist monotonicity.  Constructing the scanner with one extra
entry appended to any whitelist category leaves the scanned finding list the
same length (no finding appears or disappears) and never increases the
number of non-suppressed findings — an added entry can only mark additional
findings as suppressed. -/
theorem C8_whitelist_monotonicity (S : SecretSanitizer) (cat : String) (p : Re)
    (text : String) (fp : Option String) :
    (scan_text (withExtraWhitelist S cat p) text fp true).length
      = (scan_text S text fp true).length
    ∧ countNonSuppressed (scan_text (withExtraWhitelist S cat p) text fp true)
      ≤ countNonSuppressed (scan_text S text fp true) := by
  unfold scan_text countNonSuppressed withExtraWhitelist
  dsimp only
  constructor
  · refine length_flatMap_congr _ _ _ (fun pat _ => ?_)
    refine length_flatMap_congr _ _ _ (fun ln _ => ?_)
    refine length_flatMap_congr _ _ _ (fun span _ => ?_)
    exact (mkFinding_extend S cat p true fp pat.1 pat.2.2.1 pat.2.2.2 ln.1 ln.2 span).1
  · refine countP_flatMap_le _ _ _ _ (fun pat _ => ?_)
    refine countP_flatMap_le _ _ _ _ (fun ln _ => ?_)
    refine countP_flatMap_le _ _ _ _ (fun span _ => ?_)
    exact (mkFinding_extend S cat p true fp pat.1 pat.2.2.1 pat.2.2.2 ln.1 ln.2 span).2

namespace Gate

/-! ## Helper lemmas for chunk index/total backfilling -/

theorem backfillAll_length (raw : List (String × ChunkMetadata)) :
    (backfillAll raw).length = raw.length := by
  simp [backfillAll]

/-- The final loop of `_chunk_by_file_boundaries` numbers the chunks
`0, 1, …, n-1`. -/
theorem backfillAll_index (raw : List (String × ChunkMetadata)) :
    (backfillAll raw).map (fun c => c.2.chunk_index) = List.range raw.length := by
  unfold backfillAll
  rw [List.map_map]
  exact List.enum_map_fst raw

/-- Totals of the enum-map used by `backfillAll`. -/
theorem map_enum_total (l : List (Nat × (String × ChunkMetadata))) (n : Nat) :
    (l.map (fun ic => (ic.2.1, { ic.2.2 with chunk_index := ic.1, total_chunks := n }))).map
        (fun c => c.2.total_chunks)
      = List.replicate l.length n := by
  induction l with
  | nil => rfl
  | cons x xs ih => simp [ih, List.replicate_succ]

/-- Totals of the set-total map used by `chunk_by_size`. -/
theorem map_setTotal_total (l : List (String × ChunkMetadata)) (n : Nat) :
    (l.map (fun c => (c.1, { c.2 with total_chunks := n }))).map
        (fun c => c.2.total_chunks)
      = List.replicate l.length n := by
  induction l with
  | nil => rfl
  | cons x xs ih => simp [ih, List.replicate_succ]

theorem backfillAll_total (raw : List (String × ChunkMetadata)) :
    (backfillAll raw).map (fun c => c.2.total_chunks)
      = List.replicate raw.length raw.length := by
  unfold backfillAll
  rw [map_enum_total]
  simp

/-- The size-based loop numbers its chunks consecutively from the start
index. -/
theorem sizeChunksGo_index (G : TokenLimitGuard) (t : List Char) (mc : Nat) :
    ∀ (fuel pos idx : Nat),
      (sizeChunksGo G t mc fuel pos idx).map (fun c => c.2.chunk_index)
        = List.range' idx (sizeChunksGo G t mc fuel pos idx).length := by
  intro fuel
  induction fuel with
  | zero => intro pos idx; rfl
  | succ fuel ih =>
    intro pos idx
    by_cases h : pos < t.length
    · simp only [sizeChunksGo, if_pos h, List.map_cons, List.length_cons, ih]
      rw [List.range'_succ]
    · simp only [sizeChunksGo, if_neg h, List.map_nil, List.length_nil]
      rfl

theorem chunk_by_size_index (G : TokenLimitGuard) (t : List Char) (mc : Nat) :
    (chunk_by_size G t mc).map (fun c => c.2.chunk_index)
      = List.range (chunk_by_size G t mc).length := by
  unfold chunk_by_size
  dsimp only
  rw [List.map_map, List.length_map, List.range_eq_range']
  exact sizeChunksGo_index G t mc t.length 0 0

theorem chunk_by_size_total (G : TokenLimitGuard) (t : List Char) (mc : Nat) :
    (chunk_by_size G t mc).map (fun c => c.2.total_chunks)
      = List.replicate (chunk_by_size G t mc).length
          (chunk_by_size G t mc).length := by
  unfold chunk_by_size
  dsimp only
  rw [List.length_map, map_setTotal_total]

/-- Python `str.split` never returns an empty list. -/
theorem splitOnSep_ne_nil (t sep : List Char) : splitOnSep t sep ≠ [] := by
  unfold splitOnSep splitOnSepGo
  split <;> simp

/-- Invariant of the hunk-boundary loop: starting from chunks numbered
`0, …, k-1` that all carry `total_chunks = 0` and a non-empty current chunk,
the loop returns a non-empty list numbered `0, …, n-1` in which every chunk
except the last keeps `total_chunks = 0` and the last carries `n`. -/
theorem hunkChunksGo_spec (G : TokenLimitGuard) (mc : Nat) :
    ∀ (hunks : List (List Char)) (chunks : List (String × ChunkMetadata))
      (cur : List (List Char)) (size : Nat),
      chunks.map (fun c => c.2.chunk_index) = List.range chunks.length →
      chunks.map (fun c => c.2.total_chunks) = List.replicate chunks.length 0 →
      cur ≠ [] →
      hunkChunksGo G mc hunks chunks cur size ≠ []
      ∧ (hunkChunksGo G mc hunks chunks cur size).map (fun c => c.2.chunk_index)
          = List.range (hunkChunksGo G mc hunks chunks cur size).length
      ∧ (hunkChunksGo G mc hunks chunks cur size).map (fun c => c.2.total_chunks)
          = List.replicate ((hunkChunksGo G mc hunks chunks cur size).length - 1) 0
            ++ [(hunkChunksGo G mc hunks chunks cur size).length] := by
  intro hunks
  induction hunks with
  | nil =>
    intro chunks cur size hidx htot hcur
    have hce : cur.isEmpty = false := by simpa using hcur
    rw [hunkChunksGo, hce]
    simp only [Bool.false_eq_true, if_false]
    refine ⟨by simp, ?_, ?_⟩
    · rw [List.map_append, hidx, List.length_append, List.map_cons, List.map_nil]
      simp [List.range_succ]
    · rw [List.map_append, htot, List.length_append, List.map_cons, List.map_nil]
      simp
  | cons hunk rest ih =>
    intro chunks cur size hidx htot hcur
    have hinv1 : (chunks ++ [closeHunkChunk G chunks.length cur 0 []]).map
          (fun c => c.2.chunk_index)
        = List.range (chunks ++ [closeHunkChunk G chunks.length cur 0 []]).length := by
      rw [List.map_append, hidx, List.length_append]
      simp only [List.map_cons, List.map_nil, List.length_cons, List.length_nil]
      rw [show (closeHunkChunk G chunks.length cur 0 []).2.chunk_index
            = chunks.length from rfl]
      exact (List.range_succ chunks.length).symm
    have hinv2 : (chunks ++ [closeHunkChunk G chunks.length cur 0 []]).map
          (fun c => c.2.total_chunks)
        = List.replicate (chunks ++ [closeHunkChunk G chunks.length cur 0 []]).length 0 := by
      rw [List.map_append, htot, List.length_append]
      simp only [List.map_cons, List.map_nil, List.length_cons, List.length_nil]
      rw [show (closeHunkChunk G chunks.length cur 0 []).2.total_chunks = 0 from rfl]
      exact (List.replicate_succ' chunks.length 0).symm
    rw [hunkChunksGo]
    split <;> split
    · exact ih _ _ _ hinv1 hinv2 (by simp)
    · exact ih chunks (cur ++ [_]) _ hidx htot (by simp)
    · exact ih _ _ _ hinv1 hinv2 (by simp)
    · exact ih chunks (cur ++ [_]) _ hidx htot (by simp)

/-- The hunk-boundary strategy as a whole: chunk indices are `0, …, n-1`, but
only the final chunk's `total_chunks` is filled in. -/
theorem chunk_by_hunk_spec (G : TokenLimitGuard) (t : List Char) (mc : Nat) :
    chunk_by_hunk_boundaries G t mc ≠ []
    ∧ (chunk_by_hunk_boundaries G t mc).map (fun c => c.2.chunk_index)
        = List.range (chunk_by_hunk_boundaries G t mc).length
    ∧ (chunk_by_hunk_boundaries G t mc).map (fun c => c.2.total_chunks)
        = List.replicate ((chunk_by_hunk_boundaries G t mc).length - 1) 0
          ++ [(chunk_by_hunk_boundaries G t mc).length] := by
  unfold chunk_by_hunk_boundaries
  rcases hsplit : splitOnSep t "@@".toList with _ | ⟨h0, rest⟩
  · exact absurd hsplit (splitOnSep_ne_nil t "@@".toList)
  · rw [hunkChunksGo]
    simp only [List.isEmpty_nil, Bool.not_true, Bool.and_false, Bool.false_eq_true,
      if_false, List.nil_append, Nat.zero_add]
    exact hunkChunksGo_spec G mc rest [] [h0] h0.length rfl rfl (by simp)

end Gate

open Gate

/-- C9 (amended): after chunking, the `chunk_index` fields are `0, 1, …, n-1`
in returned order for every strategy and every input; `total_chunks` is
backfilled to the length of the returned list for the file-boundary and
size-based strategies, but under the hunk-boundary strategy only the final
chunk receives the chunk count — every earlier chunk keeps `total_chunks = 0`
(see the counterexample).  The budget hypothesis reflects that Python raises
for a zero character budget (`range` step 0 / division by zero). -/
theorem C9_amended (G : TokenLimitGuard) (text : String)
    (hmc : 0 < G.max_tokens * G.chars_per_token) :
    ((chunk_text_smartly G text .FILE_BOUNDARY 5).map (fun c => c.2.chunk_index)
        = List.range (chunk_text_smartly G text .FILE_BOUNDARY 5).length
      ∧ (chunk_text_smartly G text .FILE_BOUNDARY 5).map (fun c => c.2.total_chunks)
        = List.replicate (chunk_text_smartly G text .FILE_BOUNDARY 5).length
            (chunk_text_smartly G text .FILE_BOUNDARY 5).length)
    ∧ ((chunk_text_smartly G text .SIZE_BASED 5).map (fun c => c.2.chunk_index)
        = List.range (chunk_text_smartly G text .SIZE_BASED 5).length
      ∧ (chunk_text_smartly G text .SIZE_BASED 5).map (fun c => c.2.total_chunks)
        = List.replicate (chunk_text_smartly G text .SIZE_BASED 5).length
            (chunk_text_smartly G text .SIZE_BASED 5).length)
    ∧ ((chunk_text_smartly G text .HUNK_BOUNDARY 5) ≠ []
      ∧ (chunk_text_smartly G text .HUNK_BOUNDARY 5).map (fun c => c.2.chunk_index)
        = List.range (chunk_text_smartly G text .HUNK_BOUNDARY 5).length
      ∧ (chunk_text_smartly G text .HUNK_BOUNDARY 5).map (fun c => c.2.total_chunks)
        = List.replicate ((chunk_text_smartly G text .HUNK_BOUNDARY 5).length - 1) 0
            ++ [(chunk_text_smartly G text .HUNK_BOUNDARY 5).length]) := by
  refine ⟨⟨?_, ?_⟩, ⟨?_, ?_⟩, ?_⟩
  · show (backfillAll _).map _ = List.range (backfillAll _).length
    rw [backfillAll_length, backfillAll_index]
  · show (backfillAll _).map _ = List.replicate (backfillAll _).length (backfillAll _).length
    rw [backfillAll_length, backfillAll_total]
  · exact chunk_by_size_index G text.toList (G.max_tokens * G.chars_per_token)
  · exact chunk_by_size_total G text.toList (G.max_tokens * G.chars_per_token)
  · exact chunk_by_hunk_spec G text.toList (G.max_tokens * G.chars_per_token)

/-- C9 witness: the hypothesis and conclusion instantiated at the concrete
guard and text of the counterexample. -/
theorem C9_amended_witness :
    0 < guardC9.max_tokens * guardC9.chars_per_token
    ∧ ((chunk_text_smartly guardC9 textC9 .HUNK_BOUNDARY 5) ≠ []
      ∧ (chunk_text_smartly guardC9 textC9 .HUNK_BOUNDARY 5).map (fun c => c.2.chunk_index)
        = List.range (chunk_text_smartly guardC9 textC9 .HUNK_BOUNDARY 5).length
      ∧ (chunk_text_smartly guardC9 textC9 .HUNK_BOUNDARY 5).map (fun c => c.2.total_chunks)
        = List.replicate ((chunk_text_smartly guardC9 textC9 .HUNK_BOUNDARY 5).length - 1) 0
            ++ [(chunk_text_smartly guardC9 textC9 .HUNK_BOUNDARY 5).length]) :=
  ⟨by decide, (C9_amended guardC9 textC9 (by decide)).2.2⟩
